import Mathlib

/-!
Verification of the warehouse ledger in `streamlit_gudang_app.py`.

The embedding models the SQLite-backed state (tables `items` and
`transactions`) as explicit Lean structures, and the relevant code paths
(the helper functions `upsert_item`, `adjust_item_for_out`,
`add_transaction_record`, the four form submit handlers for single/batch
receipts and issues, `load_inventory_from_excel`, `totals_for_period` and
`compare_months`) as pure state-passing functions.

Modelling conventions:
- SQL `REAL` quantities are modelled as `ℚ`.
- Timestamps (`datetime.now()`) are modelled as `Nat` parameters threaded
  into each operation; reports compare timestamps at day granularity, so a
  transaction's `date` column is its `created_at` value itself.
- `random.randint(100, 999)` inside `generate_trx_code` is modelled as a
  `Nat` parameter.
- Python `str.strip()` and `str.upper()` are modelled character-wise on the
  string's character list (`pyStrip`, `pyUpper`).
- `SELECT ... WHERE name=? AND unit=?` returns the first matching row in
  rowid (insertion) order, modelled by `List.find?`; `UPDATE ... WHERE id=?`
  rewrites every row whose `id` matches, modelled by `List.map`.
- `st.error` messages that interpolate values are modelled as structured
  error constructors carrying the interpolated values.
-/

namespace Gudang

/-- Python `str.strip()`: drop leading and trailing whitespace. -/
def pyStrip (s : String) : String :=
  ⟨List.rdropWhile Char.isWhitespace (s.data.dropWhile Char.isWhitespace)⟩

/-- Uppercase a single ASCII character, as Python `str.upper()` does. -/
def pyUpperChar (c : Char) : Char :=
  if c.isLower then Char.ofNat (c.toNat - 32) else c

/-- Python `str.upper()`. -/
def pyUpper (s : String) : String :=
  ⟨s.data.map pyUpperChar⟩

/-- One row of the `items` table (`CREATE TABLE items` in `init_db`). -/
structure Item where
  id : Nat
  name : String
  category : String
  unit : String
  quantity : ℚ
  min_stock : ℚ
  rack_location : String
  expiry_date : Option String
  created_at : Nat
  updated_at : Nat
deriving Repr, DecidableEq

/-- One row of the `transactions` table (the Movement Log). -/
structure Trx where
  trx_type : String
  item_id : Option Nat
  name : String
  quantity : ℚ
  unit : String
  requester : Option String
  supplier : Option String
  note : String
  bundle_code : String
  trx_code : String
  expiry_date : Option String
  created_at : Nat
deriving Repr, DecidableEq

/-- The SQLite database state: `items` and `transactions` tables plus the
`AUTOINCREMENT` counter for `items.id`. -/
structure DB where
  items : List Item
  transactions : List Trx
  next_id : Nat
deriving Repr, DecidableEq

/-- `SELECT ... FROM items WHERE name=? AND unit=?` (first row in rowid
order), as used by `upsert_item`, `adjust_item_for_out` and the issue
forms. -/
def find_item (s : DB) (name unit : String) : Option Item :=
  s.items.find? (fun it => it.name = name && it.unit = unit)

/-- `generate_trx_code`: `TRX-{TYPE}-{timestamp}-{random 100..999}`. The
formatted timestamp string and the random draw are parameters. -/
def generate_trx_code (trx_type : String) (nowStr : String) (rand : Nat) : String :=
  "TRX-" ++ pyUpper trx_type ++ "-" ++ nowStr ++ "-" ++ toString rand

/-- `upsert_item(name, category, unit, quantity, min_stock, rack_location,
expiry_date)`: strips `name`, looks up `(name, unit)`; if found adds
`quantity` to the stored quantity and overwrites `category`, `min_stock`,
`rack_location`, `expiry_date`, `created_at`, `updated_at`; otherwise
inserts a fresh row. Returns the item id and the new state. -/
def upsert_item (name category unit : String) (quantity min_stock : ℚ)
    (rack_location : String) (expiry_date : Option String) (now : Nat)
    (s : DB) : Nat × DB :=
  let name := pyStrip name
  match find_item s name unit with
  | some row =>
      let item_id := row.id
      let new_quantity := row.quantity + quantity
      let items := s.items.map (fun j =>
        if j.id = item_id then
          { j with
            quantity := new_quantity,
            category := category,
            min_stock := min_stock,
            rack_location := rack_location,
            expiry_date := expiry_date,
            created_at := now,
            updated_at := now }
        else j)
      (item_id, { s with items := items })
  | none =>
      let item_id := s.next_id
      let it : Item := ⟨item_id, name, category, unit, quantity, min_stock,
        rack_location, expiry_date, now, now⟩
      (item_id, { s with items := s.items ++ [it], next_id := s.next_id + 1 })

/-- `adjust_item_for_out(name, unit, quantity)`: returns
`(item_id, error)` and the new state; on a missing item or insufficient
stock the state is unchanged and `item_id` is `None`. -/
def adjust_item_for_out (name unit : String) (quantity : ℚ) (s : DB) :
    (Option Nat × Option String) × DB :=
  match find_item s name unit with
  | none => ((none, some "Item tidak ditemukan"), s)
  | some row =>
      if row.quantity < quantity then
        ((none, some ("Stok tidak cukup: tersedia " ++ toString row.quantity)), s)
      else
        let new_quantity := row.quantity - quantity
        let items := s.items.map (fun j =>
          if j.id = row.id then { j with quantity := new_quantity } else j)
        ((some row.id, none), { s with items := items })

/-- `add_transaction_record`: appends one row to `transactions`. -/
def add_transaction_record (trx_type : String) (item_id : Option Nat)
    (name : String) (quantity : ℚ) (unit : String)
    (requester supplier : Option String) (note bundle_code trx_code : String)
    (expiry_date : Option String) (now : Nat) (s : DB) : DB :=
  { s with
    transactions := s.transactions ++
      [⟨trx_type, item_id, name, quantity, unit, requester, supplier, note,
        bundle_code, trx_code, expiry_date, now⟩] }

/-- Result of the single-item receipt form (`in_single` submit handler). -/
inductive InResult where
  | validationErr
  | ok (trx_code : String)
deriving Repr, DecidableEq

/-- The `in_single` form submit handler: rejects when `name`, `quantity > 0`
or `unit` is missing, otherwise upserts and appends one movement whose
`bundle_code` equals the generated `trx_code` (no `expiry_date` is passed
to `upsert_item` by this form). -/
def in_single (name : String) (quantity : ℚ) (category : String)
    (min_stock : ℚ) (supplier rack_location unit : String)
    (nowStr : String) (rand : Nat) (now : Nat) (s : DB) : InResult × DB :=
  let trx_code := generate_trx_code "in" nowStr rand
  if name = "" ∨ quantity ≤ 0 ∨ unit = "" then
    (.validationErr, s)
  else
    let r := upsert_item name category unit quantity min_stock rack_location none now s
    let s2 := add_transaction_record "in" (some r.1) name quantity unit
      none (some supplier) "Single-item masuk" trx_code trx_code none now r.2
    (.ok trx_code, s2)

/-- Result of the single-item issue form (`out_single` submit handler).
`insufficientErr` carries the interpolated values of the message
`Stok tidak cukup. Stok: {row[0]}, diminta: {quantity}`. -/
inductive OutSingleResult where
  | validationErr
  | notFoundErr
  | insufficientErr (available requested : ℚ)
  | ok (trx_code : String)
deriving Repr, DecidableEq

/-- The `out_single` form submit handler: field validation, then a direct
stock lookup; on success `adjust_item_for_out` runs and one movement is
appended. -/
def out_single (name unit : String) (quantity : ℚ) (requester note : String)
    (nowStr : String) (rand : Nat) (now : Nat) (s : DB) : OutSingleResult × DB :=
  let trx_code := generate_trx_code "out" nowStr rand
  if name = "" ∨ quantity ≤ 0 ∨ unit = "" ∨ requester = "" then
    (.validationErr, s)
  else
    match find_item s name unit with
    | none => (.notFoundErr, s)
    | some row =>
        if row.quantity < quantity then
          (.insufficientErr row.quantity quantity, s)
        else
          let r := adjust_item_for_out name unit quantity s
          let s2 := add_transaction_record "out" r.1.1 name quantity unit
            (some requester) none note trx_code trx_code none now r.2
          (.ok trx_code, s2)

/-- One row of the multi-item receipt form state (`st.session_state.in_multi`). -/
structure InLine where
  name : String
  unit : String
  quantity : ℚ
  category : String
  min_stock : ℚ
  rack_location : String
  expiry_date : Option String
deriving Repr, DecidableEq

/-- One row of the multi-item issue form state (`st.session_state.out_multi`). -/
structure OutLine where
  name : String
  unit : String
  quantity : ℚ
  note : String
deriving Repr, DecidableEq

/-- Per-line field validation used by both batch forms:
`not it['name'] or it['quantity'] <= 0 or not it['unit']`. -/
def in_line_invalid (l : InLine) : Bool :=
  l.name = "" || decide (l.quantity ≤ 0) || l.unit = ""

/-- Per-line field validation of the batch issue form. -/
def out_line_invalid (l : OutLine) : Bool :=
  l.name = "" || decide (l.quantity ≤ 0) || l.unit = ""

/-- The `Baris {idx+1}: ...` validation messages collected by the batch
forms over `enumerate(...)`. -/
def enum_errors {α : Type} (invalid : α → Bool) (lines : List α) : List String :=
  ((List.enumFrom 0 lines).filter (fun p => invalid p.2)).map
    (fun p => "Baris " ++ toString (p.1 + 1) ++
      ": Nama, satuan dan jumlah (>0) harus diisi")

/-- Reason attached to a failing line of the batch issue pre-check;
`insufficient` carries the interpolated values of
`Stok: {row[0]}, diminta: {it['quantity']}`. -/
inductive OutReason where
  | notFound
  | insufficient (available requested : ℚ)
deriving Repr, DecidableEq

/-- The batch-issue pre-check of one line against the current state:
`None` when the line passes, otherwise the `(name, reason)` pair that the
handler appends to `insufficient`. -/
def out_check (s : DB) (l : OutLine) : Option (String × OutReason) :=
  match find_item s l.name l.unit with
  | none => some (l.name, .notFound)
  | some row =>
      if row.quantity < l.quantity then
        some (l.name, .insufficient row.quantity l.quantity)
      else none

/-- The `insufficient` list built by the batch issue handler: every line is
checked against the same pre-batch state `s`. -/
def out_insufficient (s : DB) (lines : List OutLine) : List (String × OutReason) :=
  lines.filterMap (out_check s)

/-- The apply loop of the batch issue handler: per line, run
`adjust_item_for_out` (its error component is discarded) and append a
movement whose `item_id` is whatever the adjustment returned. -/
def out_apply (lines : List OutLine) (requester bundle trx_code : String)
    (now : Nat) (s : DB) : DB :=
  lines.foldl (fun acc l =>
    let r := adjust_item_for_out l.name l.unit l.quantity acc
    add_transaction_record "out" r.1.1 l.name l.quantity l.unit
      (some requester) none l.note bundle trx_code none now r.2) s

/-- Result of the batch issue form (`out_multi_form` submit handler). -/
inductive OutMultiResult where
  | emptyErr
  | requesterErr
  | validationErr (msgs : List String)
  | rejected (reasons : List (String × OutReason))
  | ok (trx_code : String)
deriving Repr, DecidableEq

/-- The `out_multi_form` submit handler: emptiness, requester and per-line
field validation, then the stock pre-check of every line against the
pre-batch state; on any failure the whole batch is rejected with the
collected reasons and the state is unchanged, otherwise the apply loop
runs under one shared `bundle_code`. -/
def out_multi (lines : List OutLine) (requester : String)
    (nowStr : String) (rand : Nat) (now : Nat) (s : DB) : OutMultiResult × DB :=
  if lines = [] then (.emptyErr, s)
  else if requester = "" then (.requesterErr, s)
  else
    let bad := enum_errors out_line_invalid lines
    if bad ≠ [] then (.validationErr bad, s)
    else
      let insufficient := out_insufficient s lines
      if insufficient ≠ [] then (.rejected insufficient, s)
      else
        let trx_code := generate_trx_code "out" nowStr rand
        (.ok trx_code, out_apply lines requester trx_code trx_code now s)

/-- Result of the batch receipt form (`in_multi_form` submit handler). -/
inductive InMultiResult where
  | emptyErr
  | validationErr (msgs : List String)
  | ok (trx_code : String)
deriving Repr, DecidableEq

/-- The apply loop of the batch receipt handler: upsert each line and
append a movement per line under one shared `bundle_code`. -/
def in_apply (lines : List InLine) (supplier note bundle trx_code : String)
    (now : Nat) (s : DB) : DB :=
  lines.foldl (fun acc l =>
    let r := upsert_item l.name l.category l.unit l.quantity l.min_stock
      l.rack_location l.expiry_date now acc
    add_transaction_record "in" (some r.1) l.name l.quantity l.unit
      none (some supplier) note bundle trx_code none now r.2) s

/-- The `in_multi_form` submit handler. -/
def in_multi (lines : List InLine) (supplier note : String)
    (nowStr : String) (rand : Nat) (now : Nat) (s : DB) : InMultiResult × DB :=
  if lines = [] then (.emptyErr, s)
  else
    let bad := enum_errors in_line_invalid lines
    if bad ≠ [] then (.validationErr bad, s)
    else
      let trx_code := generate_trx_code "in" nowStr rand
      (.ok trx_code, in_apply lines supplier note trx_code trx_code now s)

/-- A submitted ledger operation: one of the four form submissions
(single/batch receipt, single/batch issue), with the clock and random
draws of that submission as data. -/
inductive Op where
  | inS (name : String) (quantity : ℚ) (category : String) (min_stock : ℚ)
      (supplier rack_location unit nowStr : String) (rand now : Nat)
  | inM (lines : List InLine) (supplier note nowStr : String) (rand now : Nat)
  | outS (name unit : String) (quantity : ℚ) (requester note nowStr : String)
      (rand now : Nat)
  | outM (lines : List OutLine) (requester nowStr : String) (rand now : Nat)

/-- The state reached after one ledger operation (the state component of
the corresponding form handler; on any rejection the handlers leave the
state untouched). -/
def step (s : DB) (op : Op) : DB :=
  match op with
  | .inS name quantity category min_stock supplier rack_location unit nowStr rand now =>
      (in_single name quantity category min_stock supplier rack_location unit
        nowStr rand now s).2
  | .inM lines supplier note nowStr rand now =>
      (in_multi lines supplier note nowStr rand now s).2
  | .outS name unit quantity requester note nowStr rand now =>
      (out_single name unit quantity requester note nowStr rand now s).2
  | .outM lines requester nowStr rand now =>
      (out_multi lines requester nowStr rand now s).2

/-- Run a sequence of submitted ledger operations. -/
def run_ops (s : DB) (ops : List Op) : DB :=
  ops.foldl step s

/-- Every item in the store has non-negative stock. -/
def stock_nonneg (s : DB) : Prop :=
  ∀ it ∈ s.items, 0 ≤ it.quantity

instance (s : DB) : Decidable (stock_nonneg s) :=
  inferInstanceAs (Decidable (∀ it ∈ s.items, 0 ≤ it.quantity))

/-- One data row of an uploaded inventory spreadsheet, after pandas typing:
`quantity`/`min_stock` are `none` for a NaN (blank) cell, `expiry_date` is
`none` when absent or NaN. -/
structure ExcelRow where
  name : String
  quantity : Option ℚ
  unit : String
  category : String
  min_stock : Option ℚ
  rack_location : String
  expiry_date : Option String
deriving Repr, DecidableEq

/-- One iteration of the `load_inventory_from_excel` loop: the row is
stripped, a NaN quantity becomes `0`, the row is routed through
`upsert_item` unconditionally, and the row counter is incremented. -/
def load_row (now : Nat) (acc : Nat × DB) (row : ExcelRow) : Nat × DB :=
  let name := pyStrip row.name
  let quantity := match row.quantity with | some q => q | none => 0
  let unit := pyStrip row.unit
  let category := pyStrip row.category
  let min_stock := match row.min_stock with | some m => m | none => 0
  let rack_location := pyStrip row.rack_location
  let r := upsert_item name category unit quantity min_stock rack_location
    row.expiry_date now acc.2
  (acc.1 + 1, r.2)

/-- `load_inventory_from_excel`: every row is upserted with no positivity
validation; the returned count is incremented for every row. -/
def load_inventory_from_excel (rows : List ExcelRow) (now : Nat) (s : DB) :
    Nat × DB :=
  rows.foldl (load_row now) (0, s)

/-- The date-window mask of `totals_for_period`: an unset bound is
unrestricted, set bounds are inclusive. -/
def in_window (date_from date_to : Option Nat) (d : Nat) : Bool :=
  (match date_from with | none => true | some a => decide (a ≤ d)) &&
  (match date_to with | none => true | some b => decide (d ≤ b))

/-- Insert one quantity into a running `(name, unit) ↦ sum` table, as the
pandas `groupby(['name','unit'])['quantity'].sum()` does. -/
def group_add (acc : List ((String × String) × ℚ)) (key : String × String)
    (q : ℚ) : List ((String × String) × ℚ) :=
  match acc with
  | [] => [(key, q)]
  | (k, v) :: rest =>
      if k = key then (k, v + q) :: rest else (k, v) :: group_add rest key q

/-- Group a movement list by `(name, unit)` and sum the quantities. -/
def group_sum (movs : List Trx) : List ((String × String) × ℚ) :=
  movs.foldl (fun acc m => group_add acc (m.name, m.unit) m.quantity) []

/-- Look a key up in a grouped-sum table; a missing key reads as `0`
(the `fillna(0)` after the joins). -/
def lookup_total (g : List ((String × String) × ℚ)) (key : String × String) : ℚ :=
  match g.find? (fun p => p.1 = key) with
  | some p => p.2
  | none => 0

/-- One output row of `totals_for_period`. -/
structure TotalsRow where
  name : String
  unit : String
  total_masuk : ℚ
  total_keluar : ℚ
  stok_akhir : ℚ
deriving Repr, DecidableEq

/-- `totals_for_period(df, date_from, date_to)`: on an empty movement log,
every stored item with zero totals; otherwise the window-filtered
movements are grouped into `masuk`/`keluar` sums and right-joined onto the
current items table, with missing totals filled with `0` and `stok_akhir`
taken from the items table. -/
def totals_for_period (s : DB) (date_from date_to : Option Nat) :
    List TotalsRow :=
  if s.transactions = [] then
    s.items.map (fun it => ⟨it.name, it.unit, 0, 0, it.quantity⟩)
  else
    let period_df := s.transactions.filter
      (fun m => in_window date_from date_to m.created_at)
    let masuk := group_sum (period_df.filter (fun m => m.trx_type = "in"))
    let keluar := group_sum (period_df.filter (fun m => m.trx_type = "out"))
    s.items.map (fun it =>
      ⟨it.name, it.unit, lookup_total masuk (it.name, it.unit),
        lookup_total keluar (it.name, it.unit), it.quantity⟩)

/-- Specification-side total (follows the spec's words, for comparison with
`totals_for_period`): the sum of the quantities of the movements of the
given type for the given `(name, unit)` inside the inclusive window. -/
def spec_total (s : DB) (ty : String) (date_from date_to : Option Nat)
    (name unit : String) : ℚ :=
  ((s.transactions.filter (fun m =>
      (m.name, m.unit) = (name, unit) && m.trx_type = ty &&
        in_window date_from date_to m.created_at)).map
    (fun m => m.quantity)).sum

/-- One output row of `compare_months`. -/
structure CmpRow where
  name : String
  qty_a : ℚ
  qty_b : ℚ
  difference : Option ℚ
  pct_change : Option ℚ
deriving Repr, DecidableEq

/-- The attribute access `df_month['created_at'].dt.to_period('M').dt.to_created_at()`
on the first line of `compare_months`. pandas period accessors expose
`to_timestamp` but no `to_created_at`, so this raises `AttributeError`
before any month bucket is computed; the embedding returns the error. -/
def dt_to_created_at (_df : List Trx) : Except String (List Nat) :=
  .error "AttributeError: PeriodProperties object has no attribute to_created_at"

/-- Sum of `out` quantities of one name in one month bucket, as the
`groupby(['month_start','name'])` plus `pivot_table` of `compare_months`
would produce. -/
def month_name_sum (sel : List (Trx × Nat)) (m : Nat) (n : String) : ℚ :=
  ((sel.filter (fun p => p.2 = m && p.1.name = n)).map
    (fun p => p.1.quantity)).sum

/-- The remainder of `compare_months` after the month-bucket column exists
(never reached by the source, which fails on `dt_to_created_at`):
restriction to `out` movements of the two months, the optional item
filter, the pivot, and `difference`/`pct_change` when both month columns
are present. -/
def compare_months_pivot (rows : List (Trx × Nat)) (month_a month_b : Nat)
    (items_list : Option (List String)) : List CmpRow :=
  let sel0 := rows.filter (fun p =>
    (p.2 = month_a || p.2 = month_b) && p.1.trx_type = "out")
  let sel : List (Trx × Nat) :=
    match items_list with
    | some il => sel0.filter (fun p => il.contains p.1.name)
    | none => sel0
  let names := (sel.map (fun p => p.1.name)).dedup
  let hasA := sel.any (fun p => p.2 = month_a)
  let hasB := sel.any (fun p => p.2 = month_b)
  names.map (fun n =>
    let qa := month_name_sum sel month_a n
    let qb := month_name_sum sel month_b n
    if hasA && hasB then
      ⟨n, qa, qb, some (qb - qa),
        if qa ≠ 0 then some ((qb - qa) / qa * 100) else none⟩
    else ⟨n, qa, qb, none, none⟩)

/-- `compare_months(df, month_a, month_b, items_list)`: computes the month
bucket column, then pivots; the bucket computation fails (see
`dt_to_created_at`). -/
def compare_months (df : List Trx) (month_a month_b : Nat)
    (items_list : Option (List String)) : Except String (List CmpRow) := do
  let month_start ← dt_to_created_at df
  pure (compare_months_pivot (df.zip month_start) month_a month_b items_list)

/-! ### Lemmas about the store helpers -/

lemma find_item_mem {s : DB} {n u : String} {it : Item}
    (h : find_item s n u = some it) : it ∈ s.items :=
  List.mem_of_find?_eq_some h

lemma find_item_keys {s : DB} {n u : String} {it : Item}
    (h : find_item s n u = some it) : it.name = n ∧ it.unit = u := by
  have := List.find?_some h
  simp only [Bool.and_eq_true, decide_eq_true_eq] at this
  exact this

lemma find_item_map {s : DB} {f : Item → Item}
    (hf : ∀ j, (f j).name = j.name ∧ (f j).unit = j.unit) (n u : String) :
    find_item { s with items := s.items.map f } n u
      = (find_item s n u).map f := by
  show (s.items.map f).find? (fun it => it.name = n && it.unit = u)
    = (s.items.find? (fun it => it.name = n && it.unit = u)).map f
  rw [List.find?_map]
  have hp : ((fun it : Item => decide (it.name = n) && decide (it.unit = u)) ∘ f)
      = (fun it : Item => decide (it.name = n) && decide (it.unit = u)) := by
    funext j
    simp [Function.comp, (hf j).1, (hf j).2]
  rw [hp]

lemma add_transaction_record_items (ty : String) (iid : Option Nat)
    (nm : String) (q : ℚ) (u : String) (rq sp : Option String)
    (nt bc tc : String) (e : Option String) (t : Nat) (s : DB) :
    (add_transaction_record ty iid nm q u rq sp nt bc tc e t s).items
      = s.items := rfl

/-! ### Branch equations mirroring the source branches -/

/-- The update applied by `upsert_item` to every row whose id matches. -/
def upsert_update (row : Item) (c : String) (q m : ℚ) (r : String)
    (e : Option String) (t : Nat) (j : Item) : Item :=
  if j.id = row.id then
    { j with
      quantity := row.quantity + q,
      category := c,
      min_stock := m,
      rack_location := r,
      expiry_date := e,
      created_at := t,
      updated_at := t }
  else j

lemma upsert_item_found {s : DB} {row : Item} {n c u r : String} {q m : ℚ}
    {e : Option String} {t : Nat}
    (hfind : find_item s (pyStrip n) u = some row) :
    upsert_item n c u q m r e t s =
      (row.id, { s with items := s.items.map (upsert_update row c q m r e t) }) := by
  simp only [upsert_item, hfind]
  rfl

lemma upsert_item_not_found {s : DB} {n c u r : String} {q m : ℚ}
    {e : Option String} {t : Nat}
    (hfind : find_item s (pyStrip n) u = none) :
    upsert_item n c u q m r e t s =
      (s.next_id,
        { s with
          items := s.items ++
            [⟨s.next_id, pyStrip n, c, u, q, m, r, e, t, t⟩],
          next_id := s.next_id + 1 }) := by
  simp only [upsert_item, hfind]

/-- The update applied by `adjust_item_for_out` on success. -/
def adjust_update (row : Item) (q : ℚ) (j : Item) : Item :=
  if j.id = row.id then { j with quantity := row.quantity - q } else j

lemma adjust_not_found {s : DB} {n u : String} {q : ℚ}
    (hfind : find_item s n u = none) :
    adjust_item_for_out n u q s = ((none, some "Item tidak ditemukan"), s) := by
  simp only [adjust_item_for_out, hfind]

lemma adjust_insufficient {s : DB} {row : Item} {n u : String} {q : ℚ}
    (hfind : find_item s n u = some row) (hlt : row.quantity < q) :
    adjust_item_for_out n u q s =
      ((none, some ("Stok tidak cukup: tersedia " ++ toString row.quantity)), s) := by
  simp only [adjust_item_for_out, hfind, if_pos hlt]

lemma adjust_ok {s : DB} {row : Item} {n u : String} {q : ℚ}
    (hfind : find_item s n u = some row) (hle : ¬ row.quantity < q) :
    adjust_item_for_out n u q s =
      ((some row.id, none),
        { s with items := s.items.map (adjust_update row q) }) := by
  simp only [adjust_item_for_out, hfind, if_neg hle]
  rfl

/-! ### The stock non-negativity invariant (C1) -/

lemma stock_nonneg_upsert {s : DB} {q m : ℚ} {n c u r : String}
    {e : Option String} {t : Nat} (h : stock_nonneg s) (hq : 0 ≤ q) :
    stock_nonneg (upsert_item n c u q m r e t s).2 := by
  cases hfind : find_item s (pyStrip n) u with
  | none =>
      rw [upsert_item_not_found hfind]
      intro it hit
      rcases List.mem_append.mp hit with h1 | h1
      · exact h it h1
      · rw [List.mem_singleton.mp h1]; exact hq
  | some row =>
      rw [upsert_item_found hfind]
      intro it hit
      rcases List.mem_map.mp hit with ⟨j, hj, rfl⟩
      unfold upsert_update
      by_cases hid : j.id = row.id
      · simp only [hid, if_pos rfl]
        exact add_nonneg (h row (find_item_mem hfind)) hq
      · simp only [if_neg hid]
        exact h j hj

lemma stock_nonneg_adjust {s : DB} {n u : String} {q : ℚ}
    (h : stock_nonneg s) :
    stock_nonneg (adjust_item_for_out n u q s).2 := by
  cases hfind : find_item s n u with
  | none => rw [adjust_not_found hfind]; exact h
  | some row =>
      by_cases hlt : row.quantity < q
      · rw [adjust_insufficient hfind hlt]; exact h
      · rw [adjust_ok hfind hlt]
        intro it hit
        rcases List.mem_map.mp hit with ⟨j, hj, rfl⟩
        unfold adjust_update
        by_cases hid : j.id = row.id
        · simp only [hid, if_pos rfl]
          exact sub_nonneg.mpr (not_lt.mp hlt)
        · simp only [if_neg hid]
          exact h j hj

lemma stock_nonneg_out_apply {lines : List OutLine} {req bc tc : String}
    {t : Nat} {s : DB} (h : stock_nonneg s) :
    stock_nonneg (out_apply lines req bc tc t s) := by
  induction lines generalizing s with
  | nil => exact h
  | cons l ls ih =>
      exact ih (fun it hit => stock_nonneg_adjust h it hit)

lemma stock_nonneg_in_apply {lines : List InLine} {sup nt bc tc : String}
    {t : Nat} {s : DB} (h : stock_nonneg s)
    (hval : ∀ l ∈ lines, 0 ≤ l.quantity) :
    stock_nonneg (in_apply lines sup nt bc tc t s) := by
  induction lines generalizing s with
  | nil => exact h
  | cons l ls ih =>
      refine ih (fun it hit => ?_) (fun l' hl' => hval l' (List.mem_cons_of_mem _ hl'))
      exact stock_nonneg_upsert h (hval l (List.mem_cons_self _ _)) it hit

lemma enumFrom_filter_nil {α : Type} (inv : α → Bool) :
    ∀ (n : Nat) (l : List α),
      ((List.enumFrom n l).filter (fun p => inv p.2) = []) ↔
        ∀ a ∈ l, inv a = false := by
  intro n l
  induction l generalizing n with
  | nil => simp
  | cons a l ih =>
      cases hinv : inv a <;>
        simp [List.enumFrom, List.filter_cons, hinv, ih]

lemma enum_errors_eq_nil {α : Type} (inv : α → Bool) (lines : List α) :
    enum_errors inv lines = [] ↔ ∀ a ∈ lines, inv a = false := by
  unfold enum_errors
  rw [List.map_eq_nil_iff]
  exact enumFrom_filter_nil inv 0 lines

lemma in_single_ok {s : DB} {name c sup rack u ns : String} {q m : ℚ}
    {rd t : Nat} (hv : ¬ (name = "" ∨ q ≤ 0 ∨ u = "")) :
    in_single name q c m sup rack u ns rd t s =
      (.ok (generate_trx_code "in" ns rd),
        add_transaction_record "in" (some (upsert_item name c u q m rack none t s).1)
          name q u none (some sup) "Single-item masuk"
          (generate_trx_code "in" ns rd) (generate_trx_code "in" ns rd) none t
          (upsert_item name c u q m rack none t s).2) := by
  simp only [in_single, if_neg hv]

lemma out_single_ok {s : DB} {row : Item} {name u req nt ns : String} {q : ℚ}
    {rd t : Nat} (hv : ¬ (name = "" ∨ q ≤ 0 ∨ u = "" ∨ req = ""))
    (hfind : find_item s name u = some row) (hle : ¬ row.quantity < q) :
    out_single name u q req nt ns rd t s =
      (.ok (generate_trx_code "out" ns rd),
        add_transaction_record "out" (adjust_item_for_out name u q s).1.1
          name q u (some req) none nt
          (generate_trx_code "out" ns rd) (generate_trx_code "out" ns rd) none t
          (adjust_item_for_out name u q s).2) := by
  simp only [out_single, if_neg hv, hfind, if_neg hle]

lemma in_multi_ok {s : DB} {lines : List InLine} {sup nt ns : String}
    {rd t : Nat} (hnil : lines ≠ [])
    (hbad : enum_errors in_line_invalid lines = []) :
    in_multi lines sup nt ns rd t s =
      (.ok (generate_trx_code "in" ns rd),
        in_apply lines sup nt (generate_trx_code "in" ns rd)
          (generate_trx_code "in" ns rd) t s) := by
  simp only [in_multi, if_neg hnil, hbad, ne_eq, not_true_eq_false,
    if_false, if_neg]

lemma out_multi_ok {s : DB} {lines : List OutLine} {req ns : String}
    {rd t : Nat} (hnil : lines ≠ []) (hreq : req ≠ "")
    (hbad : enum_errors out_line_invalid lines = [])
    (hins : out_insufficient s lines = []) :
    out_multi lines req ns rd t s =
      (.ok (generate_trx_code "out" ns rd),
        out_apply lines req (generate_trx_code "out" ns rd)
          (generate_trx_code "out" ns rd) t s) := by
  simp only [out_multi, if_neg hnil, if_neg hreq, hbad, hins, ne_eq,
    not_true_eq_false, if_false]

lemma out_multi_rejected {s : DB} {lines : List OutLine} {req ns : String}
    {rd t : Nat} (hnil : lines ≠ []) (hreq : req ≠ "")
    (hbad : enum_errors out_line_invalid lines = [])
    (hins : out_insufficient s lines ≠ []) :
    out_multi lines req ns rd t s =
      (.rejected (out_insufficient s lines), s) := by
  simp only [out_multi, if_neg hnil, if_neg hreq, hbad, ne_eq,
    not_true_eq_false, if_false, if_pos hins]

lemma stock_nonneg_step {s : DB} (op : Op) (h : stock_nonneg s) :
    stock_nonneg (step s op) := by
  cases op with
  | inS name q c m sup rack u ns rd t =>
      by_cases hv : name = "" ∨ q ≤ 0 ∨ u = ""
      · show stock_nonneg (in_single name q c m sup rack u ns rd t s).2
        simp only [in_single, if_pos hv]
        exact h
      · show stock_nonneg (in_single name q c m sup rack u ns rd t s).2
        rw [in_single_ok hv]
        have hq : 0 ≤ q := by
          rcases not_or.mp hv with ⟨-, hv2⟩
          rcases not_or.mp hv2 with ⟨hq0, -⟩
          exact le_of_lt (lt_of_not_le hq0)
        exact fun it hit => stock_nonneg_upsert h hq it hit
  | inM lines sup nt ns rd t =>
      show stock_nonneg (in_multi lines sup nt ns rd t s).2
      by_cases hnil : lines = []
      · simp only [in_multi, if_pos hnil]; exact h
      · by_cases hbad : enum_errors in_line_invalid lines = []
        · rw [in_multi_ok hnil hbad]
          refine fun it hit => stock_nonneg_in_apply h (fun l hl => ?_) it hit
          have hinv := (enum_errors_eq_nil in_line_invalid lines).mp hbad l hl
          simp only [in_line_invalid, Bool.or_eq_false_iff,
            decide_eq_false_iff_not] at hinv
          exact le_of_lt (lt_of_not_le hinv.1.2)
        · simp only [in_multi, if_neg hnil, hbad, ne_eq, if_pos, if_true]
          exact h
  | outS name u q req nt ns rd t =>
      show stock_nonneg (out_single name u q req nt ns rd t s).2
      by_cases hv : name = "" ∨ q ≤ 0 ∨ u = "" ∨ req = ""
      · simp only [out_single, if_pos hv]; exact h
      · cases hfind : find_item s name u with
        | none => simp only [out_single, if_neg hv, hfind]; exact h
        | some row =>
            by_cases hlt : row.quantity < q
            · simp only [out_single, if_neg hv, hfind, if_pos hlt]; exact h
            · rw [out_single_ok hv hfind hlt]
              exact fun it hit => stock_nonneg_adjust h it hit
  | outM lines req ns rd t =>
      show stock_nonneg (out_multi lines req ns rd t s).2
      by_cases hnil : lines = []
      · simp only [out_multi, if_pos hnil]; exact h
      · by_cases hreq : req = ""
        · simp only [out_multi, if_neg hnil, if_pos hreq]; exact h
        · by_cases hbad : enum_errors out_line_invalid lines = []
          · by_cases hins : out_insufficient s lines = []
            · rw [out_multi_ok hnil hreq hbad hins]
              exact fun it hit => stock_nonneg_out_apply h it hit
            · rw [out_multi_rejected hnil hreq hbad hins]
              exact h
          · simp only [out_multi, if_neg hnil, if_neg hreq, hbad, ne_eq,
              if_pos, if_true]
            exact h

lemma stock_nonneg_run_ops {s : DB} (ops : List Op) (h : stock_nonneg s) :
    stock_nonneg (run_ops s ops) := by
  induction ops generalizing s with
  | nil => exact h
  | cons op ops ih => exact ih (stock_nonneg_step op h)

/-- C1: starting from any store state in which every item's quantity is
non-negative, after any prefix of any sequence of submitted ledger
operations (single/batch receipts and issues) every item's quantity is
still non-negative; in particular no issue ever drives a stock below
zero. -/
theorem ledger_stock_nonneg (s : DB) (ops : List Op) (h : stock_nonneg s) :
    ∀ n : Nat, stock_nonneg (run_ops s (ops.take n)) :=
  fun _ => stock_nonneg_run_ops _ h

def demo_db : DB :=
  ⟨[⟨1, "Beras", "pangan", "kg", 5, 0, "R1", none, 0, 0⟩], [], 2⟩

def demo_ops : List Op :=
  [.inS "Beras" 10 "pangan" 0 "sup" "R1" "kg" "20240101-080000" 123 1,
   .outS "Beras" "kg" 12 "Ani" "catatan" "20240102-080000" 456 2]

/-- Witness for C1 at a concrete store and operation sequence. -/
theorem ledger_stock_nonneg_witness :
    stock_nonneg demo_db ∧ stock_nonneg (run_ops demo_db (demo_ops.take 2)) :=
  ⟨by decide, ledger_stock_nonneg demo_db demo_ops (by decide) 2⟩

/-! ### Batch issue: all-or-nothing rejection (C2) and pre-batch snapshot (C3) -/

lemma find_item_add_trx (ty : String) (iid : Option Nat) (nm : String)
    (q : ℚ) (u : String) (rq sp : Option String) (nt bc tc : String)
    (e : Option String) (t : Nat) (s : DB) (n u' : String) :
    find_item (add_transaction_record ty iid nm q u rq sp nt bc tc e t s) n u'
      = find_item s n u' := rfl

lemma adjust_transactions (n u : String) (q : ℚ) (s : DB) :
    (adjust_item_for_out n u q s).2.transactions = s.transactions := by
  cases hfind : find_item s n u with
  | none => rw [adjust_not_found hfind]
  | some row =>
      by_cases hlt : row.quantity < q
      · rw [adjust_insufficient hfind hlt]
      · rw [adjust_ok hfind hlt]

lemma add_trx_trans_length (ty : String) (iid : Option Nat) (nm : String)
    (q : ℚ) (u : String) (rq sp : Option String) (nt bc tc : String)
    (e : Option String) (t : Nat) (s : DB) :
    (add_transaction_record ty iid nm q u rq sp nt bc tc e t s).transactions.length
      = s.transactions.length + 1 := by
  simp [add_transaction_record]

lemma out_apply_trans_length (lines : List OutLine) (req bc tc : String)
    (t : Nat) (s : DB) :
    (out_apply lines req bc tc t s).transactions.length
      = s.transactions.length + lines.length := by
  induction lines generalizing s with
  | nil => rfl
  | cons l ls ih =>
      show (out_apply ls req bc tc t _).transactions.length = _
      rw [ih, add_trx_trans_length, adjust_transactions, List.length_cons]
      omega

lemma length_filterMap_eq_length_filter {α β : Type} (f : α → Option β)
    (l : List α) :
    (l.filterMap f).length = (l.filter (fun a => (f a).isSome)).length := by
  induction l with
  | nil => rfl
  | cons a l ih =>
      cases hfa : f a <;>
        simp [List.filterMap_cons, List.filter_cons, hfa, ih]

lemma out_line_valid_of {l : OutLine} (hn : l.name ≠ "") (hq : 0 < l.quantity)
    (hu : l.unit ≠ "") : out_line_invalid l = false := by
  simp [out_line_invalid, hn, hu, not_le.mpr hq]

/-- C2: a batch issue in which every line is well-formed but at least one
line references a missing `(name, unit)` or requests more than its current
stock is rejected as a whole: the handler returns the collected
`(name, reason)` list with exactly one reason per failing line, the store
state is unchanged, and no movement is appended. -/
theorem out_multi_all_or_nothing (s : DB) (lines : List OutLine)
    (req ns : String) (rd t : Nat)
    (hne : lines ≠ []) (hreq : req ≠ "")
    (hvalid : ∀ l ∈ lines, l.name ≠ "" ∧ 0 < l.quantity ∧ l.unit ≠ "")
    (hfail : ∃ l ∈ lines, find_item s l.name l.unit = none ∨
      ∃ it ∈ s.items, find_item s l.name l.unit = some it ∧
        it.quantity < l.quantity) :
    out_multi lines req ns rd t s = (.rejected (out_insufficient s lines), s) ∧
    out_insufficient s lines ≠ [] ∧
    (out_insufficient s lines).length
      = (lines.filter (fun l => (out_check s l).isSome)).length ∧
    (out_multi lines req ns rd t s).2.transactions = s.transactions := by
  have hbad : enum_errors out_line_invalid lines = [] := by
    refine (enum_errors_eq_nil out_line_invalid lines).mpr (fun l hl => ?_)
    rcases hvalid l hl with ⟨h1, h2, h3⟩
    exact out_line_valid_of h1 h2 h3
  have hins : out_insufficient s lines ≠ [] := by
    rcases hfail with ⟨l, hl, hcase⟩
    intro hnil
    have hnone := List.filterMap_eq_nil_iff.mp hnil l hl
    rcases hcase with hmiss | ⟨it, -, hfind, hlt⟩
    · simp [out_check, hmiss] at hnone
    · simp [out_check, hfind, if_pos hlt] at hnone
  have heq : out_multi lines req ns rd t s
      = (.rejected (out_insufficient s lines), s) :=
    out_multi_rejected hne hreq hbad hins
  refine ⟨heq, hins, length_filterMap_eq_length_filter _ _, ?_⟩
  rw [heq]

def demo2_db : DB :=
  ⟨[⟨1, "A", "", "kg", 5, 0, "", none, 0, 0⟩,
    ⟨2, "B", "", "kg", 5, 0, "", none, 0, 0⟩], [], 3⟩

def demo2_lines : List OutLine :=
  [⟨"A", "kg", 3, ""⟩, ⟨"B", "kg", 10, ""⟩]

/-- Witness for C2: stock `{A:5, B:5}` and batch `[issue A:3, issue B:10]`
is rejected whole, leaving the state untouched. -/
theorem out_multi_all_or_nothing_witness :
    (∀ l ∈ demo2_lines, l.name ≠ "" ∧ 0 < l.quantity ∧ l.unit ≠ "") ∧
    (out_multi demo2_lines "Ani" "ts" 101 5 demo2_db
        = (.rejected (out_insufficient demo2_db demo2_lines), demo2_db) ∧
      out_insufficient demo2_db demo2_lines ≠ [] ∧
      (out_insufficient demo2_db demo2_lines).length
        = (demo2_lines.filter
            (fun l => (out_check demo2_db l).isSome)).length ∧
      (out_multi demo2_lines "Ani" "ts" 101 5 demo2_db).2.transactions
        = demo2_db.transactions) :=
  ⟨by decide,
    out_multi_all_or_nothing demo2_db demo2_lines "Ani" "ts" 101 5
      (by decide) (by decide) (by decide)
      ⟨⟨"B", "kg", 10, ""⟩, by decide, by decide⟩⟩

/-- C3: the stock pre-check of a batch issue reads only the pre-batch
store snapshot: if every line, checked individually against the state as
it stood before the batch, finds its item and requests no more than that
original stock, the batch is accepted and one movement per line is
appended — even when lines targeting the same item jointly exceed the
stock. -/
theorem out_multi_pre_snapshot (s : DB) (lines : List OutLine)
    (req ns : String) (rd t : Nat)
    (hne : lines ≠ []) (hreq : req ≠ "")
    (hvalid : ∀ l ∈ lines, l.name ≠ "" ∧ 0 < l.quantity ∧ l.unit ≠ "")
    (hsuff : ∀ l ∈ lines, ∃ it ∈ s.items,
      find_item s l.name l.unit = some it ∧ l.quantity ≤ it.quantity) :
    (out_multi lines req ns rd t s).1
        = .ok (generate_trx_code "out" ns rd) ∧
    (out_multi lines req ns rd t s).2.transactions.length
        = s.transactions.length + lines.length := by
  have hbad : enum_errors out_line_invalid lines = [] := by
    refine (enum_errors_eq_nil out_line_invalid lines).mpr (fun l hl => ?_)
    rcases hvalid l hl with ⟨h1, h2, h3⟩
    exact out_line_valid_of h1 h2 h3
  have hins : out_insufficient s lines = [] := by
    refine List.filterMap_eq_nil_iff.mpr (fun l hl => ?_)
    rcases hsuff l hl with ⟨it, -, hfind, hle⟩
    simp [out_check, hfind, if_neg (not_lt.mpr hle)]
  rw [out_multi_ok hne hreq hbad hins]
  exact ⟨rfl, out_apply_trans_length _ _ _ _ _ _⟩

def demo3_db : DB := ⟨[⟨1, "A", "", "kg", 5, 0, "", none, 0, 0⟩], [], 2⟩

def demo3_lines : List OutLine :=
  [⟨"A", "kg", 3, ""⟩, ⟨"A", "kg", 4, ""⟩]

/-- Witness for C3: with stock `A:5`, the batch `[issue A:3, issue A:4]`
is accepted, because each line is checked against the original stock `5`,
not against the other line's effect. -/
theorem out_multi_pre_snapshot_witness :
    (∀ l ∈ demo3_lines, ∃ it ∈ demo3_db.items,
      find_item demo3_db l.name l.unit = some it ∧
        l.quantity ≤ it.quantity) ∧
    ((out_multi demo3_lines "Ani" "ts" 101 5 demo3_db).1
        = .ok (generate_trx_code "out" "ts" 101) ∧
      (out_multi demo3_lines "Ani" "ts" 101 5 demo3_db).2.transactions.length
        = demo3_db.transactions.length + demo3_lines.length) :=
  ⟨by decide,
    out_multi_pre_snapshot demo3_db demo3_lines "Ani" "ts" 101 5
      (by decide) (by decide) (by decide) (by decide)⟩

/-! ### Single issue with insufficient stock (C4) -/

/-- C4: a single-item issue whose fields pass validation, whose item
exists, and whose requested quantity exceeds the current stock fails with
the insufficient-stock error carrying the actual available quantity, and
returns the state unchanged (no movement appended, stock untouched). -/
theorem out_single_insufficient (s : DB) (name unit req nt ns : String)
    (q : ℚ) (rd t : Nat) (it : Item)
    (hv : ¬ (name = "" ∨ q ≤ 0 ∨ unit = "" ∨ req = ""))
    (hfind : find_item s name unit = some it)
    (hlt : it.quantity < q) :
    out_single name unit q req nt ns rd t s
      = (.insufficientErr it.quantity q, s) := by
  simp only [out_single, if_neg hv, hfind, if_pos hlt]

/-- Witness for C4 at a concrete store: issuing 12 of an item with stock 5
fails carrying available quantity 5 and changes nothing. -/
theorem out_single_insufficient_witness :
    find_item demo3_db "A" "kg" = some ⟨1, "A", "", "kg", 5, 0, "", none, 0, 0⟩ ∧
    out_single "A" "kg" 12 "Ani" "nt" "ts" 101 5 demo3_db
      = (.insufficientErr 5 12, demo3_db) :=
  ⟨by decide,
    out_single_insufficient demo3_db "A" "kg" "Ani" "nt" "ts" 12 101 5
      ⟨1, "A", "", "kg", 5, 0, "", none, 0, 0⟩ (by decide) (by decide) (by decide)⟩

/-! ### Batch issue apply loop discards per-line errors (C9) -/

lemma adjust_update_keys (row : Item) (q : ℚ) (j : Item) :
    (adjust_update row q j).name = j.name ∧ (adjust_update row q j).unit = j.unit := by
  unfold adjust_update
  split <;> simp

lemma find_item_adjust_ok {s : DB} {row : Item} {n u : String} {q : ℚ}
    (hfind : find_item s n u = some row) (hle : ¬ row.quantity < q) :
    find_item (adjust_item_for_out n u q s).2 n u
      = some { row with quantity := row.quantity - q } := by
  rw [adjust_ok hfind hle, find_item_map (adjust_update_keys row q) n u, hfind]
  simp [adjust_update]

/-- C9: in the batch-issue apply phase the per-line error of
`adjust_item_for_out` is discarded. For a two-line batch on one
`(name, unit)` whose lines each pass the pre-batch snapshot check but
whose sum exceeds the stock, the batch is accepted, only the first
deduction is applied (final stock = original − first quantity), and a
movement is still appended for the skipped second line with a `None`
item reference. -/
theorem out_multi_silent_skip (s : DB) (n u : String) (q1 q2 : ℚ)
    (nt1 nt2 req ns : String) (rd t : Nat) (it : Item)
    (hn : n ≠ "") (hu : u ≠ "") (hreq : req ≠ "")
    (hq1 : 0 < q1) (hq2 : 0 < q2)
    (hfind : find_item s n u = some it)
    (h1 : q1 ≤ it.quantity) (h2 : q2 ≤ it.quantity)
    (hsum : it.quantity < q1 + q2) :
    (out_multi [⟨n, u, q1, nt1⟩, ⟨n, u, q2, nt2⟩] req ns rd t s).1
        = .ok (generate_trx_code "out" ns rd) ∧
    find_item (out_multi [⟨n, u, q1, nt1⟩, ⟨n, u, q2, nt2⟩] req ns rd t s).2 n u
        = some { it with quantity := it.quantity - q1 } ∧
    (out_multi [⟨n, u, q1, nt1⟩, ⟨n, u, q2, nt2⟩] req ns rd t s).2.transactions
        = s.transactions ++
          [⟨"out", some it.id, n, q1, u, some req, none, nt1,
            generate_trx_code "out" ns rd, generate_trx_code "out" ns rd, none, t⟩,
           ⟨"out", none, n, q2, u, some req, none, nt2,
            generate_trx_code "out" ns rd, generate_trx_code "out" ns rd, none, t⟩] := by
  have hle1 : ¬ it.quantity < q1 := not_lt.mpr h1
  have hle2 : ¬ it.quantity < q2 := not_lt.mpr h2
  have hne : ([⟨n, u, q1, nt1⟩, ⟨n, u, q2, nt2⟩] : List OutLine) ≠ [] := by
    simp
  have hbad : enum_errors out_line_invalid [⟨n, u, q1, nt1⟩, ⟨n, u, q2, nt2⟩] = [] := by
    refine (enum_errors_eq_nil _ _).mpr (fun l hl => ?_)
    simp only [List.mem_cons, List.not_mem_nil, or_false] at hl
    rcases hl with rfl | rfl
    · exact out_line_valid_of hn hq1 hu
    · exact out_line_valid_of hn hq2 hu
  have hins : out_insufficient s [⟨n, u, q1, nt1⟩, ⟨n, u, q2, nt2⟩] = [] := by
    refine List.filterMap_eq_nil_iff.mpr (fun l hl => ?_)
    simp only [List.mem_cons, List.not_mem_nil, or_false] at hl
    rcases hl with rfl | rfl
    · simp [out_check, hfind, if_neg hle1]
    · simp [out_check, hfind, if_neg hle2]
  rw [out_multi_ok hne hreq hbad hins]
  have eadj1 := adjust_ok (q := q1) hfind hle1
  have eA : out_apply [⟨n, u, q1, nt1⟩, ⟨n, u, q2, nt2⟩] req
        (generate_trx_code "out" ns rd) (generate_trx_code "out" ns rd) t s
      = out_apply [⟨n, u, q2, nt2⟩] req
          (generate_trx_code "out" ns rd) (generate_trx_code "out" ns rd) t
          (add_transaction_record "out" (adjust_item_for_out n u q1 s).1.1
            n q1 u (some req) none nt1
            (generate_trx_code "out" ns rd) (generate_trx_code "out" ns rd)
            none t (adjust_item_for_out n u q1 s).2) := rfl
  rw [eadj1] at eA
  set sAdj : DB := { s with items := s.items.map (adjust_update it q1) } with hsAdj
  set sA : DB := add_transaction_record "out" (some it.id) n q1 u (some req)
    none nt1 (generate_trx_code "out" ns rd) (generate_trx_code "out" ns rd)
    none t sAdj with hsA
  have hfindA : find_item sA n u = some { it with quantity := it.quantity - q1 } := by
    rw [hsA, find_item_add_trx]
    have := find_item_adjust_ok hfind hle1
    rw [eadj1] at this
    exact this
  have hlt2 : ({ it with quantity := it.quantity - q1 } : Item).quantity < q2 := by
    show it.quantity - q1 < q2
    linarith
  have eadj2 := adjust_insufficient hfindA hlt2
  have eB : out_apply [⟨n, u, q2, nt2⟩] req
        (generate_trx_code "out" ns rd) (generate_trx_code "out" ns rd) t sA
      = add_transaction_record "out" (adjust_item_for_out n u q2 sA).1.1
          n q2 u (some req) none nt2
          (generate_trx_code "out" ns rd) (generate_trx_code "out" ns rd)
          none t (adjust_item_for_out n u q2 sA).2 := rfl
  rw [eadj2] at eB
  rw [eA, eB]
  refine ⟨rfl, ?_, ?_⟩
  · rw [find_item_add_trx]
    exact hfindA
  · show (sA.transactions ++ [_]) = _
    rw [hsA]
    show ((sAdj.transactions ++ [_]) ++ [_]) = _
    rw [hsAdj]
    show ((s.transactions ++ [_]) ++ [_]) = _
    rw [List.append_assoc]
    rfl

def demo9_db : DB := ⟨[⟨1, "A", "", "kg", 5, 0, "", none, 0, 0⟩], [], 2⟩

/-- Witness for C9: stock `A:5`, batch `[issue A:3, issue A:3]` is
accepted; the final stock is `5 − 3` and the second appended movement has
no item reference. -/
theorem out_multi_silent_skip_witness :
    (5:ℚ) < 3 + 3 ∧
    ((out_multi [⟨"A", "kg", 3, ""⟩, ⟨"A", "kg", 3, ""⟩] "Ani" "ts" 101 5 demo9_db).1
        = .ok (generate_trx_code "out" "ts" 101) ∧
    find_item (out_multi [⟨"A", "kg", 3, ""⟩, ⟨"A", "kg", 3, ""⟩] "Ani" "ts" 101 5 demo9_db).2 "A" "kg"
        = some { (⟨1, "A", "", "kg", 5, 0, "", none, 0, 0⟩ : Item) with quantity := 5 - 3 } ∧
    (out_multi [⟨"A", "kg", 3, ""⟩, ⟨"A", "kg", 3, ""⟩] "Ani" "ts" 101 5 demo9_db).2.transactions
        = demo9_db.transactions ++
          [⟨"out", some 1, "A", 3, "kg", some "Ani", none, "",
            generate_trx_code "out" "ts" 101, generate_trx_code "out" "ts" 101, none, 5⟩,
           ⟨"out", none, "A", 3, "kg", some "Ani", none, "",
            generate_trx_code "out" "ts" 101, generate_trx_code "out" "ts" 101, none, 5⟩]) :=
  ⟨by norm_num,
    out_multi_silent_skip demo9_db "A" "kg" 3 3 "" "" "Ani" "ts" 101 5
      ⟨1, "A", "", "kg", 5, 0, "", none, 0, 0⟩
      (by decide) (by decide) (by decide) (by decide) (by decide)
      (by decide) (by decide) (by decide) (by norm_num)⟩

/-! ### Upsert on an existing item (C8) -/

lemma dropWhile_rdropWhile_dropWhile (p : Char → Bool) (l : List Char) :
    List.dropWhile p (List.rdropWhile p (List.dropWhile p l))
      = List.rdropWhile p (List.dropWhile p l) := by
  cases hrd : List.rdropWhile p (List.dropWhile p l) with
  | nil => rfl
  | cons a as =>
      rw [List.dropWhile_cons]
      have hpre : ∃ t, List.dropWhile p l
          = List.rdropWhile p (List.dropWhile p l) ++ t := by
        obtain ⟨r, hr⟩ := List.dropWhile_suffix
          (l := (List.dropWhile p l).reverse) p
        refine ⟨r.reverse, ?_⟩
        conv_lhs => rw [← List.reverse_reverse (List.dropWhile p l), ← hr]
        rw [List.reverse_append, List.rdropWhile]
      obtain ⟨t, ht⟩ := hpre
      rw [hrd] at ht
      have hne : List.dropWhile p l ≠ [] := by rw [ht]; simp
      have hhead : (List.dropWhile p l).head hne = a := by
        have h2 : (List.dropWhile p l).head? = some a := by rw [ht]; rfl
        rw [List.head?_eq_head hne, Option.some_inj] at h2
        exact h2
      have hnot := List.head_dropWhile_not p l hne
      rw [hhead] at hnot
      simp [hnot]

lemma pyStrip_idem (s : String) : pyStrip (pyStrip s) = pyStrip s := by
  show (⟨List.rdropWhile Char.isWhitespace
    ((List.rdropWhile Char.isWhitespace
      (s.data.dropWhile Char.isWhitespace)).dropWhile Char.isWhitespace)⟩ : String)
      = ⟨List.rdropWhile Char.isWhitespace (s.data.dropWhile Char.isWhitespace)⟩
  rw [dropWhile_rdropWhile_dropWhile, List.rdropWhile_idempotent]

/-- C8: when `upsert_item` finds an existing `(stripped name, unit)` item,
it returns that item's id, leaves the movement log and the number of items
unchanged, replaces the found row (keeping its `id`, `name`, `unit`) with
quantity increased by the received amount and `category`, `min_stock`,
`rack_location`, `expiry_date` overwritten — and refreshes `created_at`
as well as `updated_at` to the current time — while every row with a
different id is kept unchanged. -/
theorem upsert_existing_overwrites (s : DB) (name c u r : String)
    (q m : ℚ) (e : Option String) (t : Nat) (it : Item)
    (hfind : find_item s (pyStrip name) u = some it) :
    (upsert_item name c u q m r e t s).1 = it.id ∧
    (upsert_item name c u q m r e t s).2.transactions = s.transactions ∧
    (upsert_item name c u q m r e t s).2.items.length = s.items.length ∧
    ∀ j ∈ s.items,
      (j.id = it.id →
        ({ j with
            quantity := it.quantity + q,
            category := c,
            min_stock := m,
            rack_location := r,
            expiry_date := e,
            created_at := t,
            updated_at := t } : Item)
          ∈ (upsert_item name c u q m r e t s).2.items) ∧
      (j.id ≠ it.id → j ∈ (upsert_item name c u q m r e t s).2.items) := by
  rw [upsert_item_found hfind]
  refine ⟨rfl, rfl, by simp, fun j hj => ⟨fun hid => ?_, fun hid => ?_⟩⟩
  · exact List.mem_map.mpr ⟨j, hj, by simp [upsert_update, hid]⟩
  · exact List.mem_map.mpr ⟨j, hj, by simp [upsert_update, hid]⟩

def demo8_db : DB :=
  ⟨[⟨1, "Beras", "lama", "kg", 7, 1, "R1", some "2024-01-01", 10, 10⟩,
    ⟨2, "Gula", "lama", "kg", 4, 1, "R2", none, 10, 10⟩], [], 3⟩

/-- Witness for C8 at a concrete store: upserting 5 kg of the existing
item overwrites its metadata and `created_at`, keeps its identity, and
leaves the other item untouched. -/
theorem upsert_existing_overwrites_witness :
    find_item demo8_db (pyStrip "Beras") "kg"
      = some ⟨1, "Beras", "lama", "kg", 7, 1, "R1", some "2024-01-01", 10, 10⟩ ∧
    ((upsert_item "Beras" "baru" "kg" 5 2 "R9" none 99 demo8_db).1 = 1 ∧
      (upsert_item "Beras" "baru" "kg" 5 2 "R9" none 99 demo8_db).2.transactions
        = demo8_db.transactions ∧
      (upsert_item "Beras" "baru" "kg" 5 2 "R9" none 99 demo8_db).2.items.length
        = demo8_db.items.length ∧
      ∀ j ∈ demo8_db.items,
        (j.id = 1 →
          ({ j with
              quantity := 7 + 5,
              category := "baru",
              min_stock := 2,
              rack_location := "R9",
              expiry_date := none,
              created_at := 99,
              updated_at := 99 } : Item)
            ∈ (upsert_item "Beras" "baru" "kg" 5 2 "R9" none 99 demo8_db).2.items) ∧
        (j.id ≠ 1 →
          j ∈ (upsert_item "Beras" "baru" "kg" 5 2 "R9" none 99 demo8_db).2.items)) :=
  ⟨by decide,
    upsert_existing_overwrites demo8_db "Beras" "baru" "kg" "R9" 5 2 none 99
      ⟨1, "Beras", "lama", "kg", 7, 1, "R1", some "2024-01-01", 10, 10⟩ (by decide)⟩

/-! ### Receiving the same (name, unit) twice (C5) -/

lemma upsert_update_keys (row : Item) (c : String) (q m : ℚ) (r : String)
    (e : Option String) (t : Nat) (j : Item) :
    (upsert_update row c q m r e t j).name = j.name ∧
    (upsert_update row c q m r e t j).unit = j.unit := by
  unfold upsert_update
  split <;> simp

lemma find_item_upsert_found {s : DB} {row : Item} {n c u r : String}
    {q m : ℚ} {e : Option String} {t : Nat}
    (hfind : find_item s (pyStrip n) u = some row) :
    find_item (upsert_item n c u q m r e t s).2 (pyStrip n) u
      = some { row with
          quantity := row.quantity + q,
          category := c,
          min_stock := m,
          rack_location := r,
          expiry_date := e,
          created_at := t,
          updated_at := t } := by
  rw [upsert_item_found hfind,
    find_item_map (fun j => upsert_update_keys row c q m r e t j) _ _, hfind]
  simp [upsert_update]

lemma find_item_upsert_not_found {s : DB} {n c u r : String}
    {q m : ℚ} {e : Option String} {t : Nat}
    (hfind : find_item s (pyStrip n) u = none) :
    find_item (upsert_item n c u q m r e t s).2 (pyStrip n) u
      = some ⟨s.next_id, pyStrip n, c, u, q, m, r, e, t, t⟩ := by
  rw [upsert_item_not_found hfind]
  show (s.items ++ [_]).find? _ = _
  rw [List.find?_append]
  have h0 : s.items.find?
      (fun it => it.name = pyStrip n && it.unit = u) = none := hfind
  rw [h0]
  simp [List.find?]

lemma upsert_transactions (n c u r : String) (q m : ℚ) (e : Option String)
    (t : Nat) (s : DB) :
    (upsert_item n c u q m r e t s).2.transactions = s.transactions := by
  cases hfind : find_item s (pyStrip n) u with
  | none => rw [upsert_item_not_found hfind]
  | some row => rw [upsert_item_found hfind]

lemma upsert_fst_found {s : DB} {row : Item} {n c u r : String} {q m : ℚ}
    {e : Option String} {t : Nat}
    (hfind : find_item s (pyStrip n) u = some row) :
    (upsert_item n c u q m r e t s).1 = row.id := by
  rw [upsert_item_found hfind]

lemma upsert_fst_not_found {s : DB} {n c u r : String} {q m : ℚ}
    {e : Option String} {t : Nat}
    (hfind : find_item s (pyStrip n) u = none) :
    (upsert_item n c u q m r e t s).1 = s.next_id := by
  rw [upsert_item_not_found hfind]

lemma find_item_in_single_ok {s : DB} {name c sup rack u ns : String}
    {q m : ℚ} {rd t : Nat} (hv : ¬ (name = "" ∨ q ≤ 0 ∨ u = ""))
    (n' u' : String) :
    find_item (in_single name q c m sup rack u ns rd t s).2 n' u'
      = find_item (upsert_item name c u q m rack none t s).2 n' u' := by
  rw [in_single_ok hv]
  rfl

lemma in_single_ok_trans {s : DB} {name c sup rack u ns : String}
    {q m : ℚ} {rd t : Nat} (hv : ¬ (name = "" ∨ q ≤ 0 ∨ u = "")) :
    (in_single name q c m sup rack u ns rd t s).2.transactions
      = s.transactions ++
        [⟨"in", some (upsert_item name c u q m rack none t s).1, name, q, u,
          none, some sup, "Single-item masuk",
          generate_trx_code "in" ns rd, generate_trx_code "in" ns rd,
          none, t⟩] := by
  rw [in_single_ok hv]
  show (upsert_item name c u q m rack none t s).2.transactions ++ [_] = _
  rw [upsert_transactions]

/-- C5 counterexample: the claim says receiving 10 then 5 of one
`(name, unit)` yields a stock of 15 for *every* initial state, but from a
state that already stocks quantity 7 of `("Beras", "kg")` the two receipts
end at stock 22, not 15. -/
theorem in_single_twice_counterexample :
    ∃ it : Item,
      find_item
        ((in_single "Beras" 5 "" 0 "" "" "kg" "ts2" 102 2
          ((in_single "Beras" 10 "" 0 "" "" "kg" "ts1" 101 1
            ⟨[⟨1, "Beras", "", "kg", 7, 0, "", none, 0, 0⟩], [], 2⟩).2)).2)
        "Beras" "kg" = some it ∧
      it.quantity = 22 ∧ ¬ it.quantity = 15 := by
  have hps : pyStrip "Beras" = "Beras" := by decide
  refine ⟨⟨1, "Beras", "", "kg", 22, 0, "", none, 2, 2⟩, ?_, rfl, by norm_num⟩
  norm_num [in_single, upsert_item, find_item, add_transaction_record,
    generate_trx_code, hps, List.find?]

/-- C5 (amended): from any initial state, receiving 10 then 5 of the same
`(name, unit)` through the single-receipt form raises that item's stock by
15 over its prior value (so exactly 15 when the item was absent), appends
two movements that reference the same item id, and the two movements'
`bundle_code`s are the two generated transaction codes — distinct
whenever the generated codes differ (which the timestamp-plus-random
generator does not guarantee). -/
theorem in_single_twice_accumulates (s : DB)
    (name c1 c2 sup1 sup2 rack1 rack2 u ns1 ns2 : String)
    (m1 m2 : ℚ) (rd1 rd2 t1 t2 : Nat)
    (hn : name ≠ "") (hu : u ≠ "")
    (hcode : generate_trx_code "in" ns1 rd1 ≠ generate_trx_code "in" ns2 rd2) :
    ∃ it : Item,
      find_item ((in_single name 5 c2 m2 sup2 rack2 u ns2 rd2 t2
          ((in_single name 10 c1 m1 sup1 rack1 u ns1 rd1 t1 s).2)).2)
        (pyStrip name) u = some it ∧
      it.quantity = (match find_item s (pyStrip name) u with
        | some j => j.quantity
        | none => 0) + 15 ∧
      ((in_single name 5 c2 m2 sup2 rack2 u ns2 rd2 t2
          ((in_single name 10 c1 m1 sup1 rack1 u ns1 rd1 t1 s).2)).2).transactions
        = s.transactions ++
          [⟨"in", some it.id, name, 10, u, none, some sup1, "Single-item masuk",
            generate_trx_code "in" ns1 rd1, generate_trx_code "in" ns1 rd1,
            none, t1⟩,
           ⟨"in", some it.id, name, 5, u, none, some sup2, "Single-item masuk",
            generate_trx_code "in" ns2 rd2, generate_trx_code "in" ns2 rd2,
            none, t2⟩] ∧
      generate_trx_code "in" ns1 rd1 ≠ generate_trx_code "in" ns2 rd2 := by
  have hv1 : ¬ (name = "" ∨ (10:ℚ) ≤ 0 ∨ u = "") := by
    push_neg
    exact ⟨hn, by norm_num, hu⟩
  have hv2 : ¬ (name = "" ∨ (5:ℚ) ≤ 0 ∨ u = "") := by
    push_neg
    exact ⟨hn, by norm_num, hu⟩
  cases hfind0 : find_item s (pyStrip name) u with
  | none =>
      have e1 : find_item ((in_single name 10 c1 m1 sup1 rack1 u ns1 rd1 t1 s).2)
          (pyStrip name) u
          = some ⟨s.next_id, pyStrip name, c1, u, 10, m1, rack1, none, t1, t1⟩ := by
        rw [find_item_in_single_ok hv1]
        exact find_item_upsert_not_found hfind0
      have e2 := find_item_upsert_found (c := c2) (q := 5) (m := m2)
        (r := rack2) (e := none) (t := t2) e1
      refine ⟨_, by rw [find_item_in_single_ok hv2]; exact e2, ?_, ?_, hcode⟩
      · show (10 : ℚ) + 5 = 0 + 15
        norm_num
      · rw [in_single_ok_trans hv2, in_single_ok_trans hv1,
          upsert_fst_not_found hfind0, upsert_fst_found e1,
          List.append_assoc]
        rfl
  | some j0 =>
      have e1 : find_item ((in_single name 10 c1 m1 sup1 rack1 u ns1 rd1 t1 s).2)
          (pyStrip name) u
          = some { j0 with
              quantity := j0.quantity + 10,
              category := c1,
              min_stock := m1,
              rack_location := rack1,
              expiry_date := none,
              created_at := t1,
              updated_at := t1 } := by
        rw [find_item_in_single_ok hv1]
        exact find_item_upsert_found hfind0
      have e2 := find_item_upsert_found (c := c2) (q := 5) (m := m2)
        (r := rack2) (e := none) (t := t2) e1
      refine ⟨_, by rw [find_item_in_single_ok hv2]; exact e2, ?_, ?_, hcode⟩
      · show j0.quantity + 10 + 5 = j0.quantity + 15
        ring
      · rw [in_single_ok_trans hv2, in_single_ok_trans hv1,
          upsert_fst_found hfind0, upsert_fst_found e1,
          List.append_assoc]
        rfl

/-- Witness for the amended C5 from the empty store: after receiving 10
then 5 of `("Beras", "kg")` with distinct generated codes, the stock is
`0 + 15` and the two movements share the item id but not the bundle
code. -/
theorem in_single_twice_accumulates_witness :
    generate_trx_code "in" "ts1" 101 ≠ generate_trx_code "in" "ts2" 102 ∧
    (∃ it : Item,
      find_item ((in_single "Beras" 5 "c2" 0 "s2" "R2" "kg" "ts2" 102 2
          ((in_single "Beras" 10 "c1" 0 "s1" "R1" "kg" "ts1" 101 1
            (⟨[], [], 1⟩ : DB)).2)).2)
        (pyStrip "Beras") "kg" = some it ∧
      it.quantity = (match find_item (⟨[], [], 1⟩ : DB) (pyStrip "Beras") "kg" with
        | some j => j.quantity
        | none => 0) + 15 ∧
      ((in_single "Beras" 5 "c2" 0 "s2" "R2" "kg" "ts2" 102 2
          ((in_single "Beras" 10 "c1" 0 "s1" "R1" "kg" "ts1" 101 1
            (⟨[], [], 1⟩ : DB)).2)).2).transactions
        = (⟨[], [], 1⟩ : DB).transactions ++
          [⟨"in", some it.id, "Beras", 10, "kg", none, some "s1",
            "Single-item masuk", generate_trx_code "in" "ts1" 101,
            generate_trx_code "in" "ts1" 101, none, 1⟩,
           ⟨"in", some it.id, "Beras", 5, "kg", none, some "s2",
            "Single-item masuk", generate_trx_code "in" "ts2" 102,
            generate_trx_code "in" "ts2" 102, none, 2⟩] ∧
      generate_trx_code "in" "ts1" 101 ≠ generate_trx_code "in" "ts2" 102) :=
  ⟨by decide,
    in_single_twice_accumulates ⟨[], [], 1⟩ "Beras" "c1" "c2" "s1" "s2"
      "R1" "R2" "kg" "ts1" "ts2" 0 0 101 102 1 2
      (by decide) (by decide) (by decide)⟩

/-! ### Bulk import applies rows with no positivity validation (C10) -/

lemma load_foldl_fst (now : Nat) (rows : List ExcelRow) :
    ∀ acc : Nat × DB,
      (rows.foldl (load_row now) acc).1 = acc.1 + rows.length := by
  induction rows with
  | nil => intro acc; simp
  | cons r rs ih =>
      intro acc
      rw [List.foldl_cons, ih]
      show (acc.1 + 1) + rs.length = acc.1 + (rs.length + 1)
      omega

/-- C10: bulk import routes every row through the receipt upsert with no
positivity validation. The returned inserted count equals the number of
rows (NaN-quantity rows included); for a single row whose stripped
`(name, unit)` already exists, the final stock is the old stock plus the
row's quantity with a NaN quantity read as 0 — so a negative quantity
decreases the stock and can make it negative, without any error. -/
theorem load_excel_unvalidated :
    (∀ (rows : List ExcelRow) (t : Nat) (s : DB),
      (load_inventory_from_excel rows t s).1 = rows.length) ∧
    (∀ (row : ExcelRow) (t : Nat) (s : DB) (it : Item),
      find_item s (pyStrip row.name) (pyStrip row.unit) = some it →
      find_item (load_inventory_from_excel [row] t s).2
          (pyStrip row.name) (pyStrip row.unit)
        = some { it with
            quantity := it.quantity +
              (match row.quantity with | some q => q | none => 0),
            category := pyStrip row.category,
            min_stock := (match row.min_stock with | some m => m | none => 0),
            rack_location := pyStrip row.rack_location,
            expiry_date := row.expiry_date,
            created_at := t,
            updated_at := t }) ∧
    (∃ it : Item,
      find_item (load_inventory_from_excel
          [⟨"Gula", some (-7), "kg", "", none, "", none⟩] 3
          ⟨[⟨1, "Gula", "", "kg", 5, 0, "", none, 0, 0⟩], [], 2⟩).2
        "Gula" "kg" = some it ∧ it.quantity = -2 ∧ it.quantity < 0) := by
  have hB : ∀ (row : ExcelRow) (t : Nat) (s : DB) (it : Item),
      find_item s (pyStrip row.name) (pyStrip row.unit) = some it →
      find_item (load_inventory_from_excel [row] t s).2
          (pyStrip row.name) (pyStrip row.unit)
        = some { it with
            quantity := it.quantity +
              (match row.quantity with | some q => q | none => 0),
            category := pyStrip row.category,
            min_stock := (match row.min_stock with | some m => m | none => 0),
            rack_location := pyStrip row.rack_location,
            expiry_date := row.expiry_date,
            created_at := t,
            updated_at := t } := by
    intro row t s it h
    have hid := pyStrip_idem row.name
    have h' : find_item s (pyStrip (pyStrip row.name)) (pyStrip row.unit)
        = some it := by rw [hid]; exact h
    have hres := find_item_upsert_found (c := pyStrip row.category)
      (q := (match row.quantity with | some q => q | none => 0))
      (m := (match row.min_stock with | some m => m | none => 0))
      (r := pyStrip row.rack_location) (e := row.expiry_date) (t := t) h'
    rw [hid] at hres
    exact hres
  refine ⟨fun rows t s => ?_, hB, ?_⟩
  · rw [load_inventory_from_excel, load_foldl_fst]
    simp
  · have hg : pyStrip "Gula" = "Gula" := by decide
    have hk : pyStrip "kg" = "kg" := by decide
    have h := hB ⟨"Gula", some (-7), "kg", "", none, "", none⟩ 3
      ⟨[⟨1, "Gula", "", "kg", 5, 0, "", none, 0, 0⟩], [], 2⟩
      ⟨1, "Gula", "", "kg", 5, 0, "", none, 0, 0⟩ (by decide)
    rw [hg, hk] at h
    exact ⟨_, h, by norm_num, by norm_num⟩

/-- Witness for C10: importing one row with quantity −7 onto an existing
stock of 5 upserts the stock down to `5 + (−7)` with no error. -/
theorem load_excel_unvalidated_witness :
    find_item (⟨[⟨1, "Gula", "", "kg", 5, 0, "", none, 0, 0⟩], [], 2⟩ : DB)
        (pyStrip "Gula") (pyStrip "kg")
      = some ⟨1, "Gula", "", "kg", 5, 0, "", none, 0, 0⟩ ∧
    find_item (load_inventory_from_excel
        [⟨"Gula", some (-7), "kg", "", none, "", none⟩] 3
        ⟨[⟨1, "Gula", "", "kg", 5, 0, "", none, 0, 0⟩], [], 2⟩).2
        (pyStrip "Gula") (pyStrip "kg")
      = some { (⟨1, "Gula", "", "kg", 5, 0, "", none, 0, 0⟩ : Item) with
          quantity := 5 + (-7),
          category := "",
          min_stock := 0,
          rack_location := "",
          expiry_date := none,
          created_at := 3,
          updated_at := 3 } :=
  ⟨by decide,
    load_excel_unvalidated.2.1 ⟨"Gula", some (-7), "kg", "", none, "", none⟩ 3
      ⟨[⟨1, "Gula", "", "kg", 5, 0, "", none, 0, 0⟩], [], 2⟩
      ⟨1, "Gula", "", "kg", 5, 0, "", none, 0, 0⟩ (by decide)⟩

/-! ### Totals for period (C6) -/

lemma lookup_group_add (acc : List ((String × String) × ℚ))
    (key k : String × String) (q : ℚ) :
    lookup_total (group_add acc key q) k
      = lookup_total acc k + (if key = k then q else 0) := by
  induction acc with
  | nil =>
      by_cases h : key = k
      · simp [group_add, lookup_total, List.find?, h]
      · simp [group_add, lookup_total, List.find?, h]
  | cons p rest ih =>
      rcases p with ⟨k', v⟩
      by_cases hpk : k' = key
      · rw [group_add, if_pos hpk]
        by_cases hk : k' = k
        · subst hpk
          simp [lookup_total, List.find?, hk]
        · have hkey : ¬ key = k := by rw [← hpk]; exact hk
          simp [lookup_total, List.find?, hk, hkey]
      · rw [group_add, if_neg hpk]
        by_cases hk : k' = k
        · have hkey : ¬ key = k := fun h => hpk (by rw [h, hk])
          simp [lookup_total, List.find?, hk, hkey]
        · simpa [lookup_total, List.find?, hk] using ih

lemma lookup_group_sum (movs : List Trx) (k : String × String) :
    lookup_total (group_sum movs) k
      = ((movs.filter (fun m => (m.name, m.unit) = k)).map
          (fun m => m.quantity)).sum := by
  suffices h : ∀ acc : List ((String × String) × ℚ),
      lookup_total (movs.foldl
        (fun acc m => group_add acc (m.name, m.unit) m.quantity) acc) k
      = lookup_total acc k +
        ((movs.filter (fun m => (m.name, m.unit) = k)).map
          (fun m => m.quantity)).sum by
    rw [group_sum, h []]
    simp [lookup_total, List.find?]
  induction movs with
  | nil => intro acc; simp
  | cons m ms ih =>
      intro acc
      rw [List.foldl_cons, ih, lookup_group_add]
      by_cases h : (m.name, m.unit) = k
      · rw [if_pos h, List.filter_cons_of_pos (by simpa using h),
          List.map_cons, List.sum_cons]
        ring
      · rw [if_neg h, List.filter_cons_of_neg (by simpa using h)]
        ring

/-- C6: `totals_for_period` returns exactly one row per Item-Store row, in
store order, whose `total_masuk`/`total_keluar` are the sums of the
quantities of the `in`/`out` movements of that `(name, unit)` inside the
inclusive (optionally unbounded) window, and whose `stok_akhir` is the
current Item-Store quantity, independent of the window; an item with no
movements in the window gets totals `(0, 0)`. -/
theorem totals_for_period_spec (s : DB) (a b : Option Nat) :
    totals_for_period s a b = s.items.map (fun it =>
      ⟨it.name, it.unit, spec_total s "in" a b it.name it.unit,
        spec_total s "out" a b it.name it.unit, it.quantity⟩) := by
  by_cases hemp : s.transactions = []
  · rw [totals_for_period, if_pos hemp]
    refine List.map_eq_map_iff.mpr (fun it _ => ?_)
    simp [spec_total, hemp]
  · rw [totals_for_period, if_neg hemp]
    refine List.map_eq_map_iff.mpr (fun it _ => ?_)
    simp only [TotalsRow.mk.injEq, true_and, and_true]
    constructor
    · rw [lookup_group_sum, List.filter_filter, List.filter_filter]
      rfl
    · rw [lookup_group_sum, List.filter_filter, List.filter_filter]
      rfl

/-! ### Month comparison (C7) -/

/-- C7 (code bug): every invocation of `compare_months` fails before
computing anything: its first statement accesses the nonexistent pandas
attribute `to_created_at` (the working analogue `to_timestamp` is used
correctly in `load_transactions_df`), so the restriction to `out`
movements, the pivot, and the `difference`/`pct_change` columns the claim
describes are dead code. -/
theorem compare_months_raises (df : List Trx) (month_a month_b : Nat)
    (items_list : Option (List String)) :
    compare_months df month_a month_b items_list
      = .error "AttributeError: PeriodProperties object has no attribute to_created_at" :=
  rfl

end Gudang
